import Mathlib

/-!
Shallow embedding of `cyberwave_edge_core/startup.py` (Cyberwave Edge Core
boot-time startup checks) and proofs about the claims of its specification.

Conventions of the embedding:
* JSON payloads (credentials.json, twin/asset metadata, driver tables) are
  modelled by the inductive `JVal`; Python `dict`s become association lists
  in insertion order, with `lookup`/`setKey` mirroring `d[k]` reads and
  `d[k] = v` writes (update-in-place of the first binding, else append).
* Effectful collaborators (filesystem reads, the Cyberwave SDK, subprocess
  calls to docker) are modelled as explicit oracle values passed in through
  `World` structures; each oracle field records the outcome the external
  call would have produced.
* Python functions that can raise an exception that escapes to the caller
  are embedded with an `Except` result; a caught-and-logged exception is a
  plain value of the ordinary branch.
* Python truthiness of JSON values is `truthy`; `str.strip()` is `strip`.
-/

/-- Characters treated as whitespace by Python's `str.strip()`:
space, tab, newline, carriage return, vertical tab, form feed. -/
def isPySpace (c : Char) : Bool :=
  c.toNat = 32 || c.toNat = 9 || c.toNat = 10 || c.toNat = 13 ||
    c.toNat = 11 || c.toNat = 12

/-- `str.strip()` on a character list: drop leading and trailing whitespace. -/
def stripChars (cs : List Char) : List Char :=
  ((cs.dropWhile isPySpace).reverse.dropWhile isPySpace).reverse

/-- Python `s.strip()`. -/
def strip (s : String) : String := String.mk (stripChars s.data)

/-- ASCII lower-casing of one character (as `str.lower` does on ASCII). -/
def asciiLower (c : Char) : Char :=
  if 65 ≤ c.toNat ∧ c.toNat ≤ 90 then Char.ofNat (c.toNat + 32) else c

/-- Python `s.lower()` (ASCII letters; no claim involves non-ASCII). -/
def pyLower (s : String) : String := String.mk (s.data.map asciiLower)

/-- Python `s.startswith(pre)`. -/
def pyStartsWith (s pre : String) : Bool := pre.data.isPrefixOf s.data

/-- Python `s.replace(pat, sub)` on character lists, fuelled by the input
length (each step consumes at least one character whenever `pat` is
non-empty, which holds for every pattern used here). -/
def replaceAllFuel : Nat → List Char → List Char → List Char → List Char
  | 0, cs, _, _ => cs
  | Nat.succ n, cs, pat, sub =>
      match cs with
      | [] => []
      | c :: rest =>
          if pat.isPrefixOf cs then sub ++ replaceAllFuel n (cs.drop pat.length) pat sub
          else c :: replaceAllFuel n rest pat sub

/-- Python `s.replace(pat, sub)`: replace all non-overlapping occurrences,
scanning left to right. -/
def pyReplace (s pat sub : String) : String :=
  String.mk (replaceAllFuel s.data.length s.data pat.data sub.data)

/-- JSON-like values, as produced by `json.load` / SDK `to_dict()` payloads.
Numbers are restricted to integers (no claim depends on float payloads). -/
inductive JVal where
  | null : JVal
  | bool : Bool → JVal
  | num : Int → JVal
  | str : String → JVal
  | arr : List JVal → JVal
  | obj : List (String × JVal) → JVal
  deriving Repr

/-- `d.get(key)` on a Python dict modelled as an association list
(first binding wins; Python dicts never hold duplicate keys). -/
def lookup {α : Type} : List (String × α) → String → Option α
  | [], _ => none
  | (k, v) :: rest, key => if k = key then some v else lookup rest key

/-- `d[key] = v` on a Python dict modelled as an association list:
replace the first binding of `key` in place, else append at the end
(matching dict insertion-order semantics). -/
def setKey {α : Type} : List (String × α) → String → α → List (String × α)
  | [], key, v => [(key, v)]
  | (k, w) :: rest, key, v =>
      if k = key then (k, v) :: rest else (k, w) :: setKey rest key v

/-- The keys of a modelled dict, in order. -/
def keysOf {α : Type} (m : List (String × α)) : List String := m.map Prod.fst

/-- Python truthiness (`bool(v)`) of a JSON value. -/
def truthy : JVal → Bool
  | JVal.null => false
  | JVal.bool b => b
  | JVal.num n => decide (n ≠ 0)
  | JVal.str s => decide (s ≠ "")
  | JVal.arr xs => !xs.isEmpty
  | JVal.obj m => !m.isEmpty

/-- Python truthiness of a `d.get(k)` result (`None` is falsy). -/
def truthyOpt : Option JVal → Bool
  | none => false
  | some v => truthy v

/-- `isinstance(v, str)`. -/
def isStr : JVal → Bool
  | JVal.str _ => true
  | _ => false

/-- `isinstance(v, dict)`. -/
def isObj : JVal → Bool
  | JVal.obj _ => true
  | _ => false

mutual

/-- `_deep_merge(base, override)` from `startup.py`: copy `base`, then for
each key/value of `override` in order, recursively merge when both sides
hold dicts, otherwise let the override value win. -/
def _deep_merge : List (String × JVal) → List (String × JVal) → List (String × JVal)
  | merged, [] => merged
  | merged, (k, v) :: rest => _deep_merge (setKey merged k (mergedValue merged k v)) rest

/-- The value stored for one `override` item by `_deep_merge`:
`_deep_merge(merged[key], value)` when `key in merged` and both values are
dicts, otherwise `value` itself. -/
def mergedValue (merged : List (String × JVal)) (k : String) : JVal → JVal
  | JVal.obj ov =>
      match lookup merged k with
      | some (JVal.obj mv) => JVal.obj (_deep_merge mv ov)
      | _ => JVal.obj ov
  | v => v

end

mutual

/-- Well-formedness of a JSON value as a Python payload: every object,
at every nesting depth, has pairwise-distinct keys (Python dicts cannot
hold duplicate keys; the association-list model can). -/
def wfVal : JVal → Bool
  | JVal.obj m => decide (keysOf m).Nodup && wfFields m
  | _ => true

/-- Well-formedness of the fields of an object (see `wfVal`). -/
def wfFields : List (String × JVal) → Bool
  | [] => true
  | (_, v) :: rest => wfVal v && wfFields rest

end

/-- Well-formedness of a modelled dict: distinct keys, well-formed values. -/
def wfObj (m : List (String × JVal)) : Bool := decide (keysOf m).Nodup && wfFields m

/-- `MergeAbsorbs x v`: the lookup result `x` already contains everything
the override value `v` would contribute, so merging `v` at that key changes
nothing. -/
def MergeAbsorbs (x : Option JVal) : JVal → Prop
  | JVal.obj ov => ∃ u, x = some (JVal.obj u) ∧ _deep_merge u ov = u
  | v => x = some v

/-- The fixed allow-list of legacy flat credential keys
(`load_credentials_envs`, backward-compatibility loop). -/
def legacyCredentialKeys : List String :=
  ["CYBERWAVE_ENVIRONMENT", "CYBERWAVE_EDGE_LOG_LEVEL", "CYBERWAVE_API_URL",
   "CYBERWAVE_BASE_URL", "CYBERWAVE_MQTT_HOST"]

/-- The loop over `data["envs"].items()` in `load_credentials_envs`:
keep string values, keys with the `CYBERWAVE_` prefix, and values that are
non-empty after stripping; store the stripped value. -/
def envsFromRaw (acc : List (String × String)) : List (String × JVal) → List (String × String)
  | [] => acc
  | (k, v) :: rest =>
      match v with
      | JVal.str s =>
          if pyStartsWith k "CYBERWAVE_" ∧ strip s ≠ ""
          then envsFromRaw (setKey acc k (strip s)) rest
          else envsFromRaw acc rest
      | _ => envsFromRaw acc rest

/-- The backward-compatibility loop of `load_credentials_envs`: for each
allow-listed legacy key, adopt the flat top-level value when the key is not
already present and the value is a string, non-empty after stripping. -/
def addLegacyKeys (fields : List (String × JVal)) (acc : List (String × String)) :
    List String → List (String × String)
  | [] => acc
  | key :: rest =>
      match lookup fields key with
      | some (JVal.str s) =>
          if (lookup acc key).isNone ∧ strip s ≠ ""
          then addLegacyKeys fields (acc ++ [(key, strip s)]) rest
          else addLegacyKeys fields acc rest
      | _ => addLegacyKeys fields acc rest

/-- `load_credentials_envs()`: the persisted runtime env vars read from
credentials.json.  `credentials` is the parsed file content
(`none` = file missing, unreadable, or invalid JSON). -/
def load_credentials_envs (credentials : Option JVal) : List (String × String) :=
  match credentials with
  | some (JVal.obj fields) =>
      let envs :=
        match lookup fields "envs" with
        | some (JVal.obj raws) => envsFromRaw [] raws
        | _ => []
      addLegacyKeys fields envs legacyCredentialKeys
  | _ => []

/-- The fall-through of `get_runtime_env_var` after the process environment:
the persisted credentials value if non-empty after stripping, else the
caller default. -/
def credentials_env_value (credentials : Option JVal) (name : String)
    (default : Option String) : Option String :=
  match lookup (load_credentials_envs credentials) name with
  | some cv => if strip cv = "" then default else some (strip cv)
  | none => default

/-- `get_runtime_env_var(name, default)`: prefer a process environment value
that is non-empty after stripping, then the persisted credentials envs,
then the default.  `osEnv` models `os.getenv`. -/
def get_runtime_env_var (osEnv : String → Option String) (credentials : Option JVal)
    (name : String) (default : Option String) : Option String :=
  match osEnv name with
  | some pv => if strip pv = "" then credentials_env_value credentials name default
               else some (strip pv)
  | none => credentials_env_value credentials name default

/-- Modelled from the spec: resolution level (2), "a trimmed non-empty value
for that name from the persisted credentials envs mapping (keys restricted
to the CYBERWAVE_ prefix)". -/
def spec_envs_lookup (credentials : Option JVal) (name : String) : Option String :=
  match credentials with
  | some (JVal.obj fields) =>
      match lookup fields "envs" with
      | some (JVal.obj raws) =>
          match lookup raws name with
          | some (JVal.str s) =>
              if pyStartsWith name "CYBERWAVE_" ∧ strip s ≠ "" then some (strip s) else none
          | _ => none
      | _ => none
  | _ => none

/-- Modelled from the spec: resolution level (3), "a trimmed non-empty
legacy flat top-level credentials value, for the fixed allow-list of names
only". -/
def spec_legacy_lookup (credentials : Option JVal) (name : String) : Option String :=
  if name ∈ legacyCredentialKeys then
    match credentials with
    | some (JVal.obj fields) =>
        match lookup fields name with
        | some (JVal.str s) => if strip s ≠ "" then some (strip s) else none
        | _ => none
    | _ => none
  else none

/-- Modelled from the spec: the four-level precedence cascade of claim C4 —
(1) live process env var non-empty after trimming; (2) persisted envs value;
(3) legacy flat value, allow-listed names only, only when the name is not
already present in envs; (4) caller default. -/
def spec_resolve (osEnv : String → Option String) (credentials : Option JVal)
    (name : String) (default : Option String) : Option String :=
  match osEnv name with
  | some pv =>
      if strip pv ≠ "" then some (strip pv)
      else match spec_envs_lookup credentials name with
        | some v => some v
        | none => match spec_legacy_lookup credentials name with
          | some v => some v
          | none => default
  | none =>
      match spec_envs_lookup credentials name with
      | some v => some v
      | none => match spec_legacy_lookup credentials name with
        | some v => some v
        | none => default

/-- Well-formedness of a parsed credentials payload: the `envs` sub-dict,
when present, has pairwise-distinct keys (true of every Python dict). -/
def credentials_wf : Option JVal → Bool
  | some (JVal.obj fields) =>
      match lookup fields "envs" with
      | some (JVal.obj raws) => decide (keysOf raws).Nodup
      | _ => true
  | _ => true

/-- A literal `{` or `}` character (written by code point to keep the
source free of brace characters in literals). -/
def isBraceChar (c : Char) : Bool := c.toNat = 123 || c.toNat = 125

/-- An ASCII hexadecimal digit. -/
def isHexChar (c : Char) : Bool :=
  (48 ≤ c.toNat && c.toNat ≤ 57) || (97 ≤ c.toNat && c.toNat ≤ 102) ||
    (65 ≤ c.toNat && c.toNat ≤ 70)

/-- An ASCII hexadecimal digit in canonical lower-case form. -/
def isLowerHexChar (c : Char) : Bool :=
  (48 ≤ c.toNat && c.toNat ≤ 57) || (97 ≤ c.toNat && c.toNat ≤ 102)

/-- Insert the canonical 8-4-4-4-12 hyphen grouping into 32 hex digits. -/
def insertHyphens (cs : List Char) : List Char :=
  cs.take 8 ++ '-' :: ((cs.drop 8).take 4 ++ '-' :: ((cs.drop 12).take 4 ++
    '-' :: ((cs.drop 16).take 4 ++ '-' :: cs.drop 20)))

/-- `str(uuid.UUID(s))` from the Python standard library, or `none` when the
constructor raises `ValueError`: drop `urn:` and `uuid:` markers, strip
surrounding braces, drop hyphens, require exactly 32 hex digits, and format
lower-case with 8-4-4-4-12 hyphen grouping.  (The exotic inputs Python's
`int(x, 16)` also tolerates inside a 32-character field, such as embedded
underscores, are not modelled.) -/
def py_uuid_canonical (s : String) : Option String :=
  let h0 := pyReplace (pyReplace s "urn:" "") "uuid:" ""
  let h1 := (((h0.data.dropWhile isBraceChar).reverse.dropWhile isBraceChar).reverse)
  let h2 := h1.filter (fun c => c != '-')
  if h2.length = 32 ∧ h2.all isHexChar then
    some (String.mk (insertHyphens (h2.map asciiLower)))
  else none

/-- One attempt's view of environment.json inside `load_environment_uuid`'s
retry loop. -/
inductive EnvFileRead where
  /-- `open` or the read raised `OSError`.  This is the only exception that
  reaches the retrying `except (json.JSONDecodeError, OSError)` handler. -/
  | osError : EnvFileRead
  /-- `json.load` raised `JSONDecodeError`.  `json.JSONDecodeError` is a
  subclass of `ValueError`, so it is caught by the earlier
  `except ValueError` handler, which returns `None` immediately — it is
  never retried. -/
  | badJson : EnvFileRead
  /-- Parsed, but the document is not a JSON object. -/
  | notDict : EnvFileRead
  /-- Parsed to an object; the argument is the value at key `"uuid"`. -/
  | dict : Option JVal → EnvFileRead

/-- The retry loop of `load_environment_uuid`: `attempt` is the 1-based
attempt number, `fuel` the number of retries still allowed after it. -/
def load_environment_uuid_go (reads : Nat → EnvFileRead) : Nat → Nat → Option String
  | attempt, fuel =>
      match reads attempt, fuel with
      | EnvFileRead.notDict, _ => none
      | EnvFileRead.badJson, _ => none
      | EnvFileRead.osError, 0 => none
      | EnvFileRead.osError, Nat.succ f => load_environment_uuid_go reads (attempt + 1) f
      | EnvFileRead.dict (some (JVal.str s)), fuel =>
          if strip s = "" then
            match fuel with
            | 0 => none
            | Nat.succ f => load_environment_uuid_go reads (attempt + 1) f
          else py_uuid_canonical (strip s)
      | EnvFileRead.dict _, 0 => none
      | EnvFileRead.dict _, Nat.succ f => load_environment_uuid_go reads (attempt + 1) f

/-- `load_environment_uuid(retries=..., retry_delay_seconds=...)`:
`fileExists` is the single `ENVIRONMENT_FILE.exists()` check performed
before the loop; `reads` gives each attempt's view of the file. -/
def load_environment_uuid (fileExists : Bool) (reads : Nat → EnvFileRead)
    (retries : Nat) : Option String :=
  if fileExists = false then none
  else load_environment_uuid_go reads 1 (max 1 (retries + 1) - 1)

/-- Outcome of one `subprocess.run` invocation. -/
inductive ProcResult where
  | ok : ProcResult
  | nonzero : ProcResult
  | timedOut : ProcResult
  deriving DecidableEq, Repr

/-- The subprocess outcomes `_run_docker_image` would observe for one twin:
whether `docker` is on PATH, and the results of `docker rm -f`,
`docker pull <image>` and `docker run ... <image>`. -/
structure DockerWorld where
  dockerInstalled : Bool
  rmResult : ProcResult
  pullResult : String → ProcResult
  runResult : String → ProcResult

/-- The image-tag adjustment of `_run_docker_image`: when the image name
carries no `:` tag and the lower-cased runtime environment is not
`"production"`, append the environment as the tag. -/
def resolve_image_tag (image : String) (rawTier : String) : String :=
  let runtime_environment := pyLower rawTier
  if image.data.contains ':' = false then
    if runtime_environment ≠ "production" then image ++ ":" ++ runtime_environment
    else image
  else image

/-- `_run_docker_image(image, params, twin_uuid=…, token=…)`.  `rawTier` is
the resolved `CYBERWAVE_ENVIRONMENT` setting before lower-casing.  The
`Except.error` branch models the one uncaught exception of the function:
`subprocess.TimeoutExpired` raised by the un-guarded `docker rm -f` call
(run without `check=True`, so its non-zero exit is swallowed, but its
timeout is not).  `params`, `twin_uuid` and `token` shape the container
command line and environment only; they do not influence control flow. -/
def _run_docker_image (w : DockerWorld) (image : String) (_params : JVal)
    (_twin_uuid _token rawTier : String) : Except Unit Bool :=
  if w.dockerInstalled = false then Except.ok false
  else
    let image := resolve_image_tag image rawTier
    match w.rmResult with
    | ProcResult.timedOut => Except.error ()
    | _ =>
        match w.pullResult image with
        | ProcResult.ok =>
            match w.runResult image with
            | ProcResult.ok => Except.ok true
            | _ => Except.ok false
        | _ => Except.ok false

/-- `_get_best_driver_image_and_params(drivers)`: always select the
`default` entry; `Except.error` models the exceptions the Python code
raises (`KeyError` on a missing subscript, `TypeError` on subscripting a
non-dict, `ValueError` from the explicit raises). -/
def _get_best_driver_image_and_params (drivers : JVal) : Except String (String × JVal) :=
  match drivers with
  | JVal.obj table =>
      match lookup table "default" with
      | none => Except.error "KeyError: default"
      | some d =>
          if truthy d = false then Except.error "No default driver specified"
          else
            match d with
            | JVal.obj entry =>
                match lookup entry "docker_image" with
                | none => Except.error "KeyError: docker_image"
                | some img =>
                    if truthy img = false ∨ isStr img = false then
                      Except.error "No docker_image specified for default driver"
                    else
                      match img with
                      | JVal.str s =>
                          Except.ok (s, (lookup entry "params").getD (JVal.arr []))
                      | _ => Except.error "unreachable: non-string docker_image"
            | _ => Except.error "TypeError: default driver entry is not a mapping"
  | _ => Except.error "TypeError: drivers is not a mapping"

/-- A twin definition as delivered by `client.twins.list`. -/
structure Twin where
  uuid : String
  name : String
  asset_uuid : String
  metadata : JVal

/-- An asset definition as delivered by `client.assets.get`. -/
structure Asset where
  metadata : List (String × JVal)

/-- The remote/subprocess oracles `fetch_and_run_twin_drivers` interacts
with: `assets` models `client.assets.get` (`Except.error` = the call
raised, caught per twin), `docker` the subprocess outcomes for the twin's
driver container, keyed by twin uuid. -/
structure TwinWorld where
  assets : String → Except Unit Asset
  docker : String → DockerWorld

/-- One entry of the result list built by `fetch_and_run_twin_drivers`. -/
structure RunResult where
  twin_uuid : String
  twin_name : String
  driver_image : String
  success : Bool
  deriving DecidableEq, Repr

/-- `twin.metadata if isinstance(twin.metadata, dict) else {}`. -/
def twinMetadataFields (t : Twin) : List (String × JVal) :=
  match t.metadata with
  | JVal.obj m => m
  | _ => []

/-- The matching guard of `fetch_and_run_twin_drivers`:
`twin_metadata.get("edge_fingerprint") != fingerprint` skips the twin, so a
twin is kept exactly when the field holds that very string. -/
def matchesFingerprint (fingerprint : String) (t : Twin) : Bool :=
  match lookup (twinMetadataFields t) "edge_fingerprint" with
  | some (JVal.str s) => s == fingerprint
  | _ => false

/-- The drivers-table resolution of `fetch_and_run_twin_drivers`: the twin's
own `metadata.drivers` when truthy, else the asset's, else nothing. -/
def pickDrivers (fromTwin fromAsset : Option JVal) : Option JVal :=
  if truthyOpt fromTwin then fromTwin
  else if truthyOpt fromAsset then fromAsset
  else none

/-- One iteration of the `for twin in twins` body of
`fetch_and_run_twin_drivers`: skip a twin whose fingerprint does not match;
skip (after logging) a twin whose asset fetch raised; raise `ValueError`
(aborting the whole loop) when no drivers table is found in twin or asset
metadata; let any exception from `_get_best_driver_image_and_params`
propagate (aborting the whole loop); catch any exception from
`_run_docker_image`, logging and continuing without a result entry.
`write_or_update_twin_json_file` and `_send_alert_for_twin` are disk /
network effects with no bearing on the returned value and are not
modelled. -/
def processOneTwin (w : TwinWorld) (token fingerprint rawTier : String) (twin : Twin)
    (results : List RunResult) : Except String (List RunResult) :=
  if matchesFingerprint fingerprint twin = false then Except.ok results
  else
    match w.assets twin.asset_uuid with
    | Except.error _ => Except.ok results
    | Except.ok asset =>
        match pickDrivers (lookup (twinMetadataFields twin) "drivers")
            (lookup asset.metadata "drivers") with
        | none => Except.error "No drivers specified in asset metadata for paired twin"
        | some drivers =>
            match _get_best_driver_image_and_params drivers with
            | Except.error e => Except.error e
            | Except.ok (driver_image, driver_params) =>
                if driver_image = "" then
                  Except.error "No drivers specified in asset metadata for paired twin"
                else
                  match _run_docker_image (w.docker twin.uuid) driver_image
                      driver_params twin.uuid token rawTier with
                  | Except.ok success =>
                      Except.ok (results ++ [⟨twin.uuid, twin.name, driver_image, success⟩])
                  | Except.error _ => Except.ok results

/-- The per-twin loop of `fetch_and_run_twin_drivers`.  `Except.error`
models an exception escaping the loop; such an exception loses the partial
`results` list. -/
def fetch_and_run_twin_drivers_go (w : TwinWorld) (token fingerprint rawTier : String) :
    List Twin → List RunResult → Except String (List RunResult)
  | [], results => Except.ok results
  | twin :: rest, results =>
      match processOneTwin w token fingerprint rawTier twin results with
      | Except.error e => Except.error e
      | Except.ok results2 =>
          fetch_and_run_twin_drivers_go w token fingerprint rawTier rest results2

/-- `fetch_and_run_twin_drivers(token, environment_uuid, fingerprint)`;
`twins` is the remote listing for the environment (the early
`if not twins: return []` coincides with the loop on the empty list). -/
def fetch_and_run_twin_drivers (w : TwinWorld) (token _environment_uuid fingerprint rawTier : String)
    (twins : List Twin) : Except String (List RunResult) :=
  fetch_and_run_twin_drivers_go w token fingerprint rawTier twins []

/-- The individual checks of `run_startup_checks`, in the order the
orchestrator attempts them. -/
inductive StartupStep where
  | creds : StartupStep
  | validateTok : StartupStep
  | mqtt : StartupStep
  | registerEdge : StartupStep
  | envCheck : StartupStep
  | fetchDrivers : StartupStep
  deriving DecidableEq, Repr

/-- The oracles `run_startup_checks` consults, one per external check. -/
structure StartupWorld where
  /-- `load_token()`. -/
  loadedToken : Option String
  /-- `validate_token(token)`. -/
  tokenValid : Bool
  /-- `check_mqtt_connection(token)` — its result is only reported. -/
  mqttOk : Bool
  /-- `register_edge(token)`. -/
  registerOk : Bool
  /-- `ENVIRONMENT_FILE.exists()` at the environment check. -/
  envFileExists : Bool
  /-- The per-attempt views of environment.json. -/
  envReads : Nat → EnvFileRead
  /-- `get_or_create_fingerprint()`. -/
  fingerprint : Option String
  /-- The twins listed for the linked environment. -/
  twins : List Twin
  /-- Asset/docker oracles for driver provisioning. -/
  tw : TwinWorld
  /-- The resolved `CYBERWAVE_ENVIRONMENT` setting. -/
  rawTier : String

/-- `run_startup_checks()`.  Returns the overall boolean together with the
list of checks that were attempted, in order; `Except.error` models an
exception escaping from `fetch_and_run_twin_drivers` (uncaught in the
orchestrator).  An MQTT failure and a fingerprint failure are only
reported; a missing environment link skips driver fetching. -/
def run_startup_checks (w : StartupWorld) : Except String (Bool × List StartupStep) :=
  match w.loadedToken with
  | none => Except.ok (false, [StartupStep.creds])
  | some token =>
      if w.tokenValid = false then
        Except.ok (false, [StartupStep.creds, StartupStep.validateTok])
      else
        let steps3 := [StartupStep.creds, StartupStep.validateTok, StartupStep.mqtt]
        if w.registerOk = false then
          Except.ok (false, steps3 ++ [StartupStep.registerEdge])
        else
          let steps5 := steps3 ++ [StartupStep.registerEdge, StartupStep.envCheck]
          match load_environment_uuid w.envFileExists w.envReads 5 with
          | none => Except.ok (true, steps5)
          | some environment_uuid =>
              match w.fingerprint with
              | none => Except.ok (true, steps5)
              | some fp =>
                  match fetch_and_run_twin_drivers w.tw token environment_uuid fp
                      w.rawTier w.twins with
                  | Except.error e => Except.error e
                  | Except.ok _ => Except.ok (true, steps5 ++ [StartupStep.fetchDrivers])

/-! Concrete scenarios used by witnesses and counterexamples. -/

/-- A docker world in which every subprocess succeeds. -/
def dockerAllOk : DockerWorld :=
  { dockerInstalled := true, rmResult := ProcResult.ok,
    pullResult := fun _ => ProcResult.ok, runResult := fun _ => ProcResult.ok }

/-- A docker world whose `docker rm -f` call times out. -/
def dockerRmTimesOut : DockerWorld :=
  { dockerInstalled := true, rmResult := ProcResult.timedOut,
    pullResult := fun _ => ProcResult.ok, runResult := fun _ => ProcResult.ok }

/-- A twin carrying `edge_fingerprint = "fp1"` in its metadata. -/
def twinFp1 : Twin :=
  { uuid := "t1", name := "t1", asset_uuid := "a1",
    metadata := JVal.obj [("edge_fingerprint", JVal.str "fp1")] }

/-- A twin carrying `edge_fingerprint = "fp2"` in its metadata. -/
def twinFp2 : Twin :=
  { uuid := "t2", name := "t2", asset_uuid := "a2",
    metadata := JVal.obj [("edge_fingerprint", JVal.str "fp2")] }

/-- A matched twin with no drivers table in its metadata (its asset has
none either in `twinWorldNoDrivers`). -/
def twinNoDrivers : Twin :=
  { uuid := "t-bad", name := "bad", asset_uuid := "a-bad",
    metadata := JVal.obj [("edge_fingerprint", JVal.str "fp")] }

/-- A matched twin with a well-formed drivers table in its metadata. -/
def twinGoodDrivers : Twin :=
  { uuid := "t-good", name := "good", asset_uuid := "a-good",
    metadata := JVal.obj [("edge_fingerprint", JVal.str "fp"),
      ("drivers", JVal.obj [("default", JVal.obj [("docker_image", JVal.str "img:1")])])] }

/-- A twin world whose assets carry no metadata and whose docker calls all
succeed. -/
def twinWorldNoDrivers : TwinWorld :=
  { assets := fun _ => Except.ok { metadata := [] },
    docker := fun _ => dockerAllOk }

/-- A twin world whose asset fetches always raise. -/
def twinWorldAssetRaises : TwinWorld :=
  { assets := fun _ => Except.error (), docker := fun _ => dockerAllOk }

/-- A startup world holding a token that fails validation. -/
def startupWorldBadToken : StartupWorld :=
  { loadedToken := some "tok", tokenValid := false, mqttOk := true,
    registerOk := true, envFileExists := false,
    envReads := fun _ => EnvFileRead.osError, fingerprint := none,
    twins := [], tw := twinWorldAssetRaises, rawTier := "production" }

/-- Per-attempt reads for the C5 scenario: reading the file raises
`OSError` on attempts 1 and 2, and it holds a valid UUID from attempt 3
on. -/
def envReadsLateUuid : Nat → EnvFileRead := fun attempt =>
  if attempt < 3 then EnvFileRead.osError
  else EnvFileRead.dict (some (JVal.str "550e8400-e29b-41d4-a716-446655440000"))

/-- Per-attempt reads whose `uuid` field carries an upper-case UUID. -/
def envReadsUppercase : Nat → EnvFileRead := fun _ =>
  EnvFileRead.dict (some (JVal.str "550E8400-E29B-41D4-A716-446655440000"))

/-! Shared lemmas about the association-list dict model. -/

theorem lookup_setKey_self {α : Type} (m : List (String × α)) (k : String) (v : α) :
    lookup (setKey m k v) k = some v := by
  induction m with
  | nil => simp [setKey, lookup]
  | cons hd tl ih =>
      obtain ⟨k', w⟩ := hd
      by_cases h : k' = k
      · simp [setKey, h, lookup]
      · simp [setKey, h, lookup, ih]

theorem lookup_setKey_ne {α : Type} (m : List (String × α)) (k k' : String) (v : α)
    (h : k' ≠ k) : lookup (setKey m k v) k' = lookup m k' := by
  induction m with
  | nil => simp [setKey, lookup, Ne.symm h]
  | cons hd tl ih =>
      obtain ⟨k₀, w⟩ := hd
      by_cases h0 : k₀ = k
      · simp [setKey, h0, lookup, Ne.symm h]
      · by_cases h1 : k₀ = k'
        · simp [setKey, h0, lookup, h1, h]
        · simp [setKey, h0, lookup, h1, ih]

theorem setKey_self {α : Type} (m : List (String × α)) (k : String) (v : α)
    (h : lookup m k = some v) : setKey m k v = m := by
  induction m with
  | nil => simp [lookup] at h
  | cons hd tl ih =>
      obtain ⟨k₀, w⟩ := hd
      by_cases h0 : k₀ = k
      · simp [lookup, h0] at h
        simp [setKey, h0, h]
      · simp [lookup, h0] at h
        simp [setKey, h0, ih h]

theorem lookup_append {α : Type} (m m' : List (String × α)) (k : String) :
    lookup (m ++ m') k =
      match lookup m k with
      | some v => some v
      | none => lookup m' k := by
  induction m with
  | nil => simp [lookup]
  | cons hd tl ih =>
      obtain ⟨k₀, w⟩ := hd
      by_cases h0 : k₀ = k
      · simp [lookup, h0]
      · simp [lookup, h0, ih]

/-- Claim C9: in `_run_docker_image`, an image name containing no `:` has
the lower-cased tier appended as its tag exactly when that tier is not
`"production"`; an image under tier `"production"` is left unchanged, and
an image already carrying a `:` is never retagged; in particular `"img"`
under `"staging"` becomes `"img:staging"`, `"img"` under `"production"`
stays `"img"`, and `"img:v2"` stays `"img:v2"` under every tier. -/
theorem C9_image_tagging :
    (∀ image tier : String, image.data.contains ':' = false →
      pyLower tier ≠ "production" →
      resolve_image_tag image tier = image ++ ":" ++ pyLower tier)
    ∧ (∀ image tier : String, image.data.contains ':' = false →
      pyLower tier = "production" → resolve_image_tag image tier = image)
    ∧ (∀ image tier : String, image.data.contains ':' = true →
      resolve_image_tag image tier = image)
    ∧ resolve_image_tag "img" "staging" = "img:staging"
    ∧ resolve_image_tag "img" "production" = "img"
    ∧ (∀ tier : String, resolve_image_tag "img:v2" tier = "img:v2") := by
  refine ⟨?_, ?_, ?_, by decide, by decide, ?_⟩
  · intro image tier h1 h2
    simp only [resolve_image_tag]
    rw [h1]
    simp [h2]
  · intro image tier h1 h2
    simp only [resolve_image_tag]
    rw [h1]
    simp [h2]
  · intro image tier h1
    simp only [resolve_image_tag]
    rw [h1]
    simp
  · intro tier
    simp only [resolve_image_tag]
    rw [show ("img:v2".data.contains ':') = true from by decide]
    simp

/-- Witness for C9 at image `"img"`, tier `"staging"`. -/
theorem C9_witness :
    ("img".data.contains ':' = false) ∧ pyLower "staging" ≠ "production" ∧
      resolve_image_tag "img" "staging" = "img" ++ ":" ++ pyLower "staging" :=
  ⟨by decide, by decide, C9_image_tagging.1 "img" "staging" (by decide) (by decide)⟩

/-- Counterexample to claim C6 as stated: with docker installed and the
pre-removal `docker rm -f` timing out, `_run_docker_image` does not return
a boolean — `subprocess.TimeoutExpired` (the `Except.error` branch) escapes
to the caller, because that call is run without `check=True` inside no
`try` block. -/
theorem C6_counterexample :
    _run_docker_image dockerRmTimesOut "img" JVal.null "twin-0000" "token" "production"
      = Except.error () := by rfl

/-- Claim C6 (amended): unless the pre-removal `docker rm -f` call times
out (with docker installed), `_run_docker_image` returns a boolean, and it
returns `true` exactly when docker is installed, the pre-removal does not
time out, and both `docker pull` and `docker run` exit zero; a pre-removal
non-zero exit is swallowed, and every pull/run failure (non-zero exit or
timeout) yields `false`. -/
theorem C6_run_docker_image_amended :
    ∀ (w : DockerWorld) (image : String) (params : JVal) (tu tk tier : String),
      (_run_docker_image w image params tu tk tier = Except.error () ↔
        w.dockerInstalled = true ∧ w.rmResult = ProcResult.timedOut)
      ∧ (_run_docker_image w image params tu tk tier = Except.ok true ↔
        w.dockerInstalled = true ∧ w.rmResult ≠ ProcResult.timedOut ∧
          w.pullResult (resolve_image_tag image tier) = ProcResult.ok ∧
          w.runResult (resolve_image_tag image tier) = ProcResult.ok) := by
  intro w image params tu tk tier
  obtain ⟨inst, rm, pull, run⟩ := w
  cases hpull : pull (resolve_image_tag image tier) <;>
    cases hrun : run (resolve_image_tag image tier) <;>
      cases inst <;> cases rm <;>
        simp [_run_docker_image, hpull, hrun]

/-- Claim C2: in `run_startup_checks`, a failed token validation is
reported and the function returns overall failure immediately — the
attempted-check trace stops at the validation step, so the MQTT probe,
edge registration, environment check and twin fetching are never
attempted. -/
theorem C2_token_validation_halts :
    ∀ (w : StartupWorld) (token : String), w.loadedToken = some token →
      w.tokenValid = false →
      run_startup_checks w
          = Except.ok (false, [StartupStep.creds, StartupStep.validateTok]) ∧
        StartupStep.mqtt ∉ [StartupStep.creds, StartupStep.validateTok] ∧
        StartupStep.registerEdge ∉ [StartupStep.creds, StartupStep.validateTok] ∧
        StartupStep.envCheck ∉ [StartupStep.creds, StartupStep.validateTok] ∧
        StartupStep.fetchDrivers ∉ [StartupStep.creds, StartupStep.validateTok] := by
  intro w token h1 h2
  refine ⟨?_, by decide, by decide, by decide, by decide⟩
  simp [run_startup_checks, h1, h2]

/-- Witness for C2 at the concrete world `startupWorldBadToken`. -/
theorem C2_witness :
    run_startup_checks startupWorldBadToken
        = Except.ok (false, [StartupStep.creds, StartupStep.validateTok]) ∧
      StartupStep.mqtt ∉ [StartupStep.creds, StartupStep.validateTok] ∧
      StartupStep.registerEdge ∉ [StartupStep.creds, StartupStep.validateTok] ∧
      StartupStep.envCheck ∉ [StartupStep.creds, StartupStep.validateTok] ∧
      StartupStep.fetchDrivers ∉ [StartupStep.creds, StartupStep.validateTok] :=
  C2_token_validation_halts startupWorldBadToken "tok" rfl rfl


theorem getBest_not_obj (v : JVal) (h : isObj v = false) :
    _get_best_driver_image_and_params v
      = Except.error "TypeError: drivers is not a mapping" := by
  match v with
  | JVal.null | JVal.bool _ | JVal.num _ | JVal.str _ | JVal.arr _ =>
      rfl
  | JVal.obj _ => simp [isObj] at h

theorem getBest_no_default (table : List (String × JVal))
    (h : lookup table "default" = none) :
    _get_best_driver_image_and_params (JVal.obj table)
      = Except.error "KeyError: default" := by
  simp [_get_best_driver_image_and_params, h]

theorem getBest_falsy_default (table : List (String × JVal)) (d : JVal)
    (h : lookup table "default" = some d) (ht : truthy d = false) :
    _get_best_driver_image_and_params (JVal.obj table)
      = Except.error "No default driver specified" := by
  simp [_get_best_driver_image_and_params, h, ht]

theorem getBest_default_not_obj (table : List (String × JVal)) (d : JVal)
    (h : lookup table "default" = some d) (ht : truthy d = true)
    (ho : isObj d = false) :
    _get_best_driver_image_and_params (JVal.obj table)
      = Except.error "TypeError: default driver entry is not a mapping" := by
  match d with
  | JVal.null | JVal.bool _ | JVal.num _ | JVal.str _ | JVal.arr _ =>
      simp [_get_best_driver_image_and_params, h, ht]
  | JVal.obj _ => simp [isObj] at ho

theorem getBest_no_image (table entry : List (String × JVal))
    (h : lookup table "default" = some (JVal.obj entry))
    (ht : truthy (JVal.obj entry) = true)
    (hi : lookup entry "docker_image" = none) :
    _get_best_driver_image_and_params (JVal.obj table)
      = Except.error "KeyError: docker_image" := by
  simp [_get_best_driver_image_and_params, h, ht, hi]

theorem getBest_bad_image (table entry : List (String × JVal)) (img : JVal)
    (h : lookup table "default" = some (JVal.obj entry))
    (ht : truthy (JVal.obj entry) = true)
    (hi : lookup entry "docker_image" = some img)
    (hor : truthy img = false ∨ isStr img = false) :
    _get_best_driver_image_and_params (JVal.obj table)
      = Except.error "No docker_image specified for default driver" := by
  simp only [_get_best_driver_image_and_params, h, ht, hi]
  simp [hor]

theorem getBest_ok (table entry : List (String × JVal)) (s : String)
    (h : lookup table "default" = some (JVal.obj entry))
    (ht : truthy (JVal.obj entry) = true)
    (hi : lookup entry "docker_image" = some (JVal.str s))
    (hs : s ≠ "") :
    _get_best_driver_image_and_params (JVal.obj table)
      = Except.ok (s, (lookup entry "params").getD (JVal.arr [])) := by
  simp only [_get_best_driver_image_and_params, h, ht, hi]
  simp [truthy, isStr, hs]

/-- Claim C8: `_get_best_driver_image_and_params` always selects the
`default` entry — every successful result is the default entry's
`docker_image` paired with its `params` (the empty list when absent) — and
it fails with a raised error when the `default` entry is absent, or when
the default entry's `docker_image` is missing or not a string; the spec's
example table resolves to `("img:1.0", ["--x"])`. -/
theorem C8_driver_selection :
    (∀ (drivers : JVal) (s : String) (p : JVal),
      _get_best_driver_image_and_params drivers = Except.ok (s, p) →
      ∃ table entry, drivers = JVal.obj table ∧
        lookup table "default" = some (JVal.obj entry) ∧
        lookup entry "docker_image" = some (JVal.str s) ∧
        p = (lookup entry "params").getD (JVal.arr []))
    ∧ (∀ table : List (String × JVal), lookup table "default" = none →
        ∃ e, _get_best_driver_image_and_params (JVal.obj table) = Except.error e)
    ∧ (∀ (table entry : List (String × JVal)),
        lookup table "default" = some (JVal.obj entry) →
        lookup entry "docker_image" = none →
        ∃ e, _get_best_driver_image_and_params (JVal.obj table) = Except.error e)
    ∧ (∀ (table entry : List (String × JVal)) (v : JVal),
        lookup table "default" = some (JVal.obj entry) →
        lookup entry "docker_image" = some v → isStr v = false →
        ∃ e, _get_best_driver_image_and_params (JVal.obj table) = Except.error e)
    ∧ _get_best_driver_image_and_params (JVal.obj [("default", JVal.obj
        [("docker_image", JVal.str "img:1.0"), ("params", JVal.arr [JVal.str "--x"])])])
      = Except.ok ("img:1.0", JVal.arr [JVal.str "--x"]) := by
  refine ⟨?_, ?_, ?_, ?_, by rfl⟩
  · intro drivers s p h
    match drivers with
    | JVal.null | JVal.bool _ | JVal.num _ | JVal.str _ | JVal.arr _ =>
        simp [_get_best_driver_image_and_params] at h
    | JVal.obj table =>
        cases hd : lookup table "default" with
        | none =>
            rw [getBest_no_default table hd] at h
            exact absurd h (by simp)
        | some d =>
            cases ht : truthy d with
            | false =>
                rw [getBest_falsy_default table d hd ht] at h
                exact absurd h (by simp)
            | true =>
                cases d with
                | null =>
                    rw [getBest_default_not_obj table _ hd ht rfl] at h
                    exact absurd h (by simp)
                | bool b =>
                    rw [getBest_default_not_obj table _ hd ht rfl] at h
                    exact absurd h (by simp)
                | num n =>
                    rw [getBest_default_not_obj table _ hd ht rfl] at h
                    exact absurd h (by simp)
                | str s0 =>
                    rw [getBest_default_not_obj table _ hd ht rfl] at h
                    exact absurd h (by simp)
                | arr xs =>
                    rw [getBest_default_not_obj table _ hd ht rfl] at h
                    exact absurd h (by simp)
                | obj entry =>
                    cases hi : lookup entry "docker_image" with
                    | none =>
                        rw [getBest_no_image table entry hd ht hi] at h
                        exact absurd h (by simp)
                    | some img =>
                        cases img with
                        | null =>
                            rw [getBest_bad_image table entry _ hd ht hi (Or.inr rfl)] at h
                            exact absurd h (by simp)
                        | bool b =>
                            rw [getBest_bad_image table entry _ hd ht hi (Or.inr rfl)] at h
                            exact absurd h (by simp)
                        | num n =>
                            rw [getBest_bad_image table entry _ hd ht hi (Or.inr rfl)] at h
                            exact absurd h (by simp)
                        | arr xs =>
                            rw [getBest_bad_image table entry _ hd ht hi (Or.inr rfl)] at h
                            exact absurd h (by simp)
                        | obj m =>
                            rw [getBest_bad_image table entry _ hd ht hi (Or.inr rfl)] at h
                            exact absurd h (by simp)
                        | str s' =>
                            by_cases hs' : s' = ""
                            · rw [getBest_bad_image table entry _ hd ht hi
                                (Or.inl (by simp [truthy, hs']))] at h
                              exact absurd h (by simp)
                            · rw [getBest_ok table entry s' hd ht hi hs'] at h
                              simp only [Except.ok.injEq, Prod.mk.injEq] at h
                              obtain ⟨h1, h2⟩ := h
                              exact ⟨table, entry, rfl, hd, h1 ▸ hi, h2.symm⟩
  · intro table hd
    exact ⟨"KeyError: default", getBest_no_default table hd⟩
  · intro table entry hd hi
    cases ht : truthy (JVal.obj entry) with
    | false => exact ⟨"No default driver specified", getBest_falsy_default table _ hd ht⟩
    | true => exact ⟨"KeyError: docker_image", getBest_no_image table entry hd ht hi⟩
  · intro table entry v hd hi hs
    cases ht : truthy (JVal.obj entry) with
    | false => exact ⟨"No default driver specified", getBest_falsy_default table _ hd ht⟩
    | true =>
        exact ⟨"No docker_image specified for default driver",
          getBest_bad_image table entry v hd ht hi (Or.inr hs)⟩

/-- Witness for C8: a table with no `default` entry fails. -/
theorem C8_witness :
    lookup ([] : List (String × JVal)) "default" = none ∧
      ∃ e, _get_best_driver_image_and_params (JVal.obj []) = Except.error e :=
  ⟨rfl, C8_driver_selection.2.1 [] rfl⟩

/-! Step lemmas for the per-twin loop. -/

theorem processOneTwin_unmatched (w : TwinWorld) (tk fp tier : String) (t : Twin)
    (acc : List RunResult) (h : matchesFingerprint fp t = false) :
    processOneTwin w tk fp tier t acc = Except.ok acc := by
  simp [processOneTwin, h]

theorem processOneTwin_asset_error (w : TwinWorld) (tk fp tier : String) (t : Twin)
    (acc : List RunResult) (h : w.assets t.asset_uuid = Except.error ()) :
    processOneTwin w tk fp tier t acc = Except.ok acc := by
  by_cases hm : matchesFingerprint fp t = false
  · simp [processOneTwin, hm]
  · simp [processOneTwin, hm, h]

theorem processOneTwin_no_drivers (w : TwinWorld) (tk fp tier : String) (t : Twin)
    (acc : List RunResult) (asset : Asset)
    (hm : matchesFingerprint fp t = true)
    (ha : w.assets t.asset_uuid = Except.ok asset)
    (hp : pickDrivers (lookup (twinMetadataFields t) "drivers")
      (lookup asset.metadata "drivers") = none) :
    processOneTwin w tk fp tier t acc
      = Except.error "No drivers specified in asset metadata for paired twin" := by
  simp [processOneTwin, hm, ha, hp]

theorem processOneTwin_descriptor_error (w : TwinWorld) (tk fp tier : String) (t : Twin)
    (acc : List RunResult) (asset : Asset) (drivers : JVal) (e : String)
    (hm : matchesFingerprint fp t = true)
    (ha : w.assets t.asset_uuid = Except.ok asset)
    (hp : pickDrivers (lookup (twinMetadataFields t) "drivers")
      (lookup asset.metadata "drivers") = some drivers)
    (hg : _get_best_driver_image_and_params drivers = Except.error e) :
    processOneTwin w tk fp tier t acc = Except.error e := by
  simp [processOneTwin, hm, ha, hp, hg]

theorem processOneTwin_run_ok (w : TwinWorld) (tk fp tier : String) (t : Twin)
    (acc : List RunResult) (asset : Asset) (drivers : JVal) (img : String) (ps : JVal)
    (b : Bool)
    (hm : matchesFingerprint fp t = true)
    (ha : w.assets t.asset_uuid = Except.ok asset)
    (hp : pickDrivers (lookup (twinMetadataFields t) "drivers")
      (lookup asset.metadata "drivers") = some drivers)
    (hg : _get_best_driver_image_and_params drivers = Except.ok (img, ps))
    (hne : img ≠ "")
    (hr : _run_docker_image (w.docker t.uuid) img ps t.uuid tk tier = Except.ok b) :
    processOneTwin w tk fp tier t acc = Except.ok (acc ++ [⟨t.uuid, t.name, img, b⟩]) := by
  simp [processOneTwin, hm, ha, hp, hg, hne, hr]

theorem processOneTwin_run_raises (w : TwinWorld) (tk fp tier : String) (t : Twin)
    (acc : List RunResult) (asset : Asset) (drivers : JVal) (img : String) (ps : JVal)
    (hm : matchesFingerprint fp t = true)
    (ha : w.assets t.asset_uuid = Except.ok asset)
    (hp : pickDrivers (lookup (twinMetadataFields t) "drivers")
      (lookup asset.metadata "drivers") = some drivers)
    (hg : _get_best_driver_image_and_params drivers = Except.ok (img, ps))
    (hne : img ≠ "")
    (hr : _run_docker_image (w.docker t.uuid) img ps t.uuid tk tier = Except.error ()) :
    processOneTwin w tk fp tier t acc = Except.ok acc := by
  simp [processOneTwin, hm, ha, hp, hg, hne, hr]

theorem go_cons_error (w : TwinWorld) (tk fp tier : String) (t : Twin)
    (rest : List Twin) (acc : List RunResult) (e : String)
    (h : processOneTwin w tk fp tier t acc = Except.error e) :
    fetch_and_run_twin_drivers_go w tk fp tier (t :: rest) acc = Except.error e := by
  simp only [fetch_and_run_twin_drivers_go, h]

theorem go_cons_ok (w : TwinWorld) (tk fp tier : String) (t : Twin)
    (rest : List Twin) (acc r2 : List RunResult)
    (h : processOneTwin w tk fp tier t acc = Except.ok r2) :
    fetch_and_run_twin_drivers_go w tk fp tier (t :: rest) acc
      = fetch_and_run_twin_drivers_go w tk fp tier rest r2 := by
  simp only [fetch_and_run_twin_drivers_go, h]

/-- Claim C7: exactly the twins whose `metadata.edge_fingerprint` equals
the local fingerprint, under exact string comparison, are selected for
driver provisioning — the loop computes the same outcome on the
fingerprint-filtered list; a twin whose metadata is missing or not a
mapping is never selected; and with twins carrying `"fp1"` and `"fp2"`
under local fingerprint `"fp1"`, only the first is selected. -/
theorem C7_twin_matching :
    (∀ (w : TwinWorld) (tk fp tier : String) (twins : List Twin) (acc : List RunResult),
      fetch_and_run_twin_drivers_go w tk fp tier twins acc
        = fetch_and_run_twin_drivers_go w tk fp tier
            (twins.filter (matchesFingerprint fp)) acc)
    ∧ (∀ (fp : String) (t : Twin), isObj t.metadata = false →
        matchesFingerprint fp t = false)
    ∧ (∀ (fp : String) (t : Twin), matchesFingerprint fp t = true ↔
        lookup (twinMetadataFields t) "edge_fingerprint" = some (JVal.str fp))
    ∧ [twinFp1, twinFp2].filter (matchesFingerprint "fp1") = [twinFp1]
    ∧ matchesFingerprint "fp1" twinFp1 = true
    ∧ matchesFingerprint "fp1" twinFp2 = false := by
  refine ⟨?_, ?_, ?_, by rfl, by rfl, by rfl⟩
  · intro w tk fp tier twins
    induction twins with
    | nil => intro acc; rfl
    | cons t rest ih =>
        intro acc
        by_cases hm : matchesFingerprint fp t = true
        · rw [List.filter_cons_of_pos hm]
          cases hpo : processOneTwin w tk fp tier t acc with
          | error e => rw [go_cons_error w tk fp tier t rest acc e hpo,
              go_cons_error w tk fp tier t _ acc e hpo]
          | ok r2 => rw [go_cons_ok w tk fp tier t rest acc r2 hpo,
              go_cons_ok w tk fp tier t _ acc r2 hpo, ih r2]
        · have hm' : matchesFingerprint fp t = false := by
            revert hm; cases matchesFingerprint fp t <;> simp
          rw [List.filter_cons_of_neg (by rw [hm']; exact Bool.false_ne_true)]
          rw [go_cons_ok w tk fp tier t rest acc acc
            (processOneTwin_unmatched w tk fp tier t acc hm')]
          exact ih acc
  · intro fp t h
    have ht : twinMetadataFields t = [] := by
      revert h
      cases hmd : t.metadata <;> simp [isObj, twinMetadataFields, hmd]
    simp [matchesFingerprint, ht, lookup]
  · intro fp t
    unfold matchesFingerprint
    cases hl : lookup (twinMetadataFields t) "edge_fingerprint" with
    | none => simp
    | some v =>
        cases v <;> simp

/-- Witness for C7: a twin with non-dict metadata is never selected. -/
theorem C7_witness :
    isObj (Twin.mk "u" "n" "a" JVal.null).metadata = false ∧
      matchesFingerprint "fp1" (Twin.mk "u" "n" "a" JVal.null) = false :=
  ⟨rfl, C7_twin_matching.2.1 "fp1" (Twin.mk "u" "n" "a" JVal.null) rfl⟩

/-- Counterexample to claim C1 as stated: under `twinWorldNoDrivers`, the
batch `[twinNoDrivers, twinGoodDrivers]` (both matching fingerprint `"fp"`)
aborts with the `ValueError` raised for the first twin's missing drivers
table — the raise is not caught at the twin's boundary, so the second twin
is never processed and the whole batch is lost — although the second twin
alone provisions successfully. -/
theorem C1_counterexample :
    fetch_and_run_twin_drivers twinWorldNoDrivers "tok" "env" "fp" "production"
        [twinNoDrivers, twinGoodDrivers]
      = Except.error "No drivers specified in asset metadata for paired twin"
    ∧ fetch_and_run_twin_drivers twinWorldNoDrivers "tok" "env" "fp" "production"
        [twinGoodDrivers]
      = Except.ok [⟨"t-good", "good", "img:1", true⟩] :=
  ⟨rfl, rfl⟩

/-- Claim C1 (amended): a failure while fetching a twin's asset and any
exception while running the twin's driver container are caught at that
twin's boundary and processing continues with the remaining twins; but a
twin with no drivers table in either its own or its asset's metadata, and
any driver-descriptor resolution failure (missing `default` entry, missing
or non-string `docker_image`), raise an uncaught exception that aborts the
whole batch. -/
theorem C1_per_twin_isolation_amended :
    (∀ (w : TwinWorld) (tk fp tier : String) (t : Twin) (rest : List Twin)
      (acc : List RunResult),
      w.assets t.asset_uuid = Except.error () →
      fetch_and_run_twin_drivers_go w tk fp tier (t :: rest) acc
        = fetch_and_run_twin_drivers_go w tk fp tier rest acc)
    ∧ (∀ (w : TwinWorld) (tk fp tier : String) (t : Twin) (rest : List Twin)
        (acc : List RunResult) (asset : Asset) (drivers : JVal) (img : String) (ps : JVal),
        matchesFingerprint fp t = true →
        w.assets t.asset_uuid = Except.ok asset →
        pickDrivers (lookup (twinMetadataFields t) "drivers")
          (lookup asset.metadata "drivers") = some drivers →
        _get_best_driver_image_and_params drivers = Except.ok (img, ps) →
        img ≠ "" →
        ∃ acc', fetch_and_run_twin_drivers_go w tk fp tier (t :: rest) acc
          = fetch_and_run_twin_drivers_go w tk fp tier rest acc')
    ∧ (∀ (w : TwinWorld) (tk fp tier : String) (t : Twin) (rest : List Twin)
        (acc : List RunResult) (asset : Asset),
        matchesFingerprint fp t = true →
        w.assets t.asset_uuid = Except.ok asset →
        pickDrivers (lookup (twinMetadataFields t) "drivers")
          (lookup asset.metadata "drivers") = none →
        fetch_and_run_twin_drivers_go w tk fp tier (t :: rest) acc
          = Except.error "No drivers specified in asset metadata for paired twin")
    ∧ (∀ (w : TwinWorld) (tk fp tier : String) (t : Twin) (rest : List Twin)
        (acc : List RunResult) (asset : Asset) (drivers : JVal) (e : String),
        matchesFingerprint fp t = true →
        w.assets t.asset_uuid = Except.ok asset →
        pickDrivers (lookup (twinMetadataFields t) "drivers")
          (lookup asset.metadata "drivers") = some drivers →
        _get_best_driver_image_and_params drivers = Except.error e →
        fetch_and_run_twin_drivers_go w tk fp tier (t :: rest) acc
          = Except.error e) := by
  refine ⟨?_, ?_, ?_, ?_⟩
  · intro w tk fp tier t rest acc ha
    exact go_cons_ok w tk fp tier t rest acc acc
      (processOneTwin_asset_error w tk fp tier t acc ha)
  · intro w tk fp tier t rest acc asset drivers img ps hm ha hp hg hne
    cases hr : _run_docker_image (w.docker t.uuid) img ps t.uuid tk tier with
    | ok b =>
        exact ⟨acc ++ [⟨t.uuid, t.name, img, b⟩], go_cons_ok w tk fp tier t rest acc _
          (processOneTwin_run_ok w tk fp tier t acc asset drivers img ps b
            hm ha hp hg hne hr)⟩
    | error u =>
        cases u
        exact ⟨acc, go_cons_ok w tk fp tier t rest acc acc
          (processOneTwin_run_raises w tk fp tier t acc asset drivers img ps
            hm ha hp hg hne hr)⟩
  · intro w tk fp tier t rest acc asset hm ha hp
    exact go_cons_error w tk fp tier t rest acc _
      (processOneTwin_no_drivers w tk fp tier t acc asset hm ha hp)
  · intro w tk fp tier t rest acc asset drivers e hm ha hp hg
    exact go_cons_error w tk fp tier t rest acc e
      (processOneTwin_descriptor_error w tk fp tier t acc asset drivers e hm ha hp hg)

/-- Witness for C1 (amended): a twin whose asset fetch raises is skipped
and the loop continues with the rest. -/
theorem C1_witness :
    twinWorldAssetRaises.assets twinFp1.asset_uuid = Except.error () ∧
      fetch_and_run_twin_drivers_go twinWorldAssetRaises "tok" "fp1" "production"
          [twinFp1, twinFp2] []
        = fetch_and_run_twin_drivers_go twinWorldAssetRaises "tok" "fp1" "production"
            [twinFp2] [] :=
  ⟨rfl, C1_per_twin_isolation_amended.1 twinWorldAssetRaises "tok" "fp1" "production"
    twinFp1 [twinFp2] [] rfl⟩

/-! Character-level lemmas for UUID canonicalization. -/

theorem char_eq_of_toNat {a b : Char} (h : a.toNat = b.toNat) : a = b := by
  apply Char.ext
  apply UInt32.eq_of_toBitVec_eq
  apply BitVec.eq_of_toNat_eq
  exact h

theorem asciiLower_hex (c : Char) (h : isHexChar c = true) :
    isLowerHexChar (asciiLower c) = true := by
  simp only [isHexChar, Bool.or_eq_true, Bool.and_eq_true, decide_eq_true_eq] at h
  by_cases hu : 65 ≤ c.toNat ∧ c.toNat ≤ 90
  · have h6 : c.toNat = 65 ∨ c.toNat = 66 ∨ c.toNat = 67 ∨ c.toNat = 68 ∨
        c.toNat = 69 ∨ c.toNat = 70 := by omega
    rcases h6 with h6 | h6 | h6 | h6 | h6 | h6
    · rw [char_eq_of_toNat (a := c) (b := 'A') (by rw [h6]; decide)]
      decide
    · rw [char_eq_of_toNat (a := c) (b := 'B') (by rw [h6]; decide)]
      decide
    · rw [char_eq_of_toNat (a := c) (b := 'C') (by rw [h6]; decide)]
      decide
    · rw [char_eq_of_toNat (a := c) (b := 'D') (by rw [h6]; decide)]
      decide
    · rw [char_eq_of_toNat (a := c) (b := 'E') (by rw [h6]; decide)]
      decide
    · rw [char_eq_of_toNat (a := c) (b := 'F') (by rw [h6]; decide)]
      decide
  · have ha : asciiLower c = c := by simp [asciiLower, hu]
    rw [ha]
    simp only [isLowerHexChar, Bool.or_eq_true, Bool.and_eq_true, decide_eq_true_eq]
    omega

/-- Claim C10: when the `uuid` field of environment.json is a string whose
stripped form parses as a UUID, `load_environment_uuid` returns the
canonical normalized `str(uuid.UUID(value.strip()))` — 32 lower-case hex
digits in 8-4-4-4-12 hyphen grouping — rather than the raw field text (the
upper-case example normalizes to lower-case, a different string); and a
first-attempt value that fails to parse makes the call return `None`
immediately, for every value of `retries`. -/
theorem C10_uuid_normalization :
    (∀ (reads : Nat → EnvFileRead) (s : String) (retries : Nat),
      reads 1 = EnvFileRead.dict (some (JVal.str s)) → strip s ≠ "" →
      load_environment_uuid true reads retries = py_uuid_canonical (strip s))
    ∧ (∀ (s c : String), py_uuid_canonical s = some c →
        ∃ ds : List Char, ds.length = 32 ∧ ds.all isLowerHexChar = true ∧
          c = String.mk (insertHyphens ds))
    ∧ py_uuid_canonical "550E8400-E29B-41D4-A716-446655440000"
        = some "550e8400-e29b-41d4-a716-446655440000"
    ∧ "550e8400-e29b-41d4-a716-446655440000" ≠ "550E8400-E29B-41D4-A716-446655440000" := by
  refine ⟨?_, ?_, by decide, by decide⟩
  · intro reads s retries h1 hs
    simp only [load_environment_uuid]
    rw [if_neg (by simp)]
    rw [load_environment_uuid_go.eq_def]
    simp only [h1]
    simp [hs]
  · intro s c h
    simp only [py_uuid_canonical] at h
    split at h
    · next hcond =>
        obtain ⟨hlen, hall⟩ := hcond
        simp only [Option.some.injEq] at h
        refine ⟨_, ?_, ?_, h.symm⟩
        · rw [List.length_map]
          exact hlen
        · rw [List.all_eq_true] at hall ⊢
          intro x hx
          rw [List.mem_map] at hx
          obtain ⟨y, hy, rfl⟩ := hx
          exact asciiLower_hex y (hall y hy)
    · exact absurd h (by simp)

/-- Witness for C10: an upper-case `uuid` value read on attempt 1 resolves
through `py_uuid_canonical` to its lower-case canonical form. -/
theorem C10_witness :
    load_environment_uuid true envReadsUppercase 5
        = py_uuid_canonical (strip "550E8400-E29B-41D4-A716-446655440000") ∧
      py_uuid_canonical (strip "550E8400-E29B-41D4-A716-446655440000")
        = some "550e8400-e29b-41d4-a716-446655440000" :=
  ⟨C10_uuid_normalization.1 envReadsUppercase
    "550E8400-E29B-41D4-A716-446655440000" 5 rfl (by decide), by decide⟩

/-- Counterexample to claim C5 as stated: with environment.json absent at
the single `exists()` check (performed before the retry loop) but holding a
valid UUID from attempt 3 on, `load_environment_uuid(retries=5)` returns
`None` immediately instead of that UUID — absence of the file is not
covered by the retry loop. -/
theorem C5_counterexample :
    envReadsLateUuid 3
        = EnvFileRead.dict (some (JVal.str "550e8400-e29b-41d4-a716-446655440000"))
    ∧ py_uuid_canonical "550e8400-e29b-41d4-a716-446655440000"
        = some "550e8400-e29b-41d4-a716-446655440000"
    ∧ load_environment_uuid false envReadsLateUuid 5 = none :=
  ⟨rfl, by decide, rfl⟩

/-- Claim C5 (amended): when the file exists at the initial check, the
bounded retry loop with `retries=5` tolerates `OSError` read failures —
`OSError` on attempts 1 and 2 and a valid UUID present on attempt 3 make
the call succeed with that (canonicalized) UUID.  Malformed JSON, however,
is never retried: `json.JSONDecodeError` subclasses `ValueError` and is
caught by the earlier `except ValueError` handler, so it returns `None`
immediately, for every `retries` value.  If the file does not exist at the
initial check, the call returns `None` immediately without retrying. -/
theorem C5_retry_amended :
    (∀ (reads : Nat → EnvFileRead) (s c : String),
      reads 1 = EnvFileRead.osError → reads 2 = EnvFileRead.osError →
      reads 3 = EnvFileRead.dict (some (JVal.str s)) →
      strip s ≠ "" → py_uuid_canonical (strip s) = some c →
      load_environment_uuid true reads 5 = some c)
    ∧ (∀ (reads : Nat → EnvFileRead) (retries : Nat),
        reads 1 = EnvFileRead.badJson →
        load_environment_uuid true reads retries = none) := by
  constructor
  · intro reads s c h1 h2 h3 hs hc
    simp only [load_environment_uuid]
    rw [if_neg (by simp)]
    rw [show max 1 (5 + 1) - 1 = 5 from rfl]
    rw [load_environment_uuid_go.eq_def]
    simp only [h1]
    show load_environment_uuid_go reads 2 4 = some c
    rw [load_environment_uuid_go.eq_def]
    simp only [h2]
    show load_environment_uuid_go reads 3 3 = some c
    rw [load_environment_uuid_go.eq_def]
    simp only [h3]
    simp [hs, hc]
  · intro reads retries h1
    simp only [load_environment_uuid]
    rw [if_neg (by simp)]
    rw [load_environment_uuid_go.eq_def]
    simp only [h1]

/-- Witness for C5 (amended) at the concrete read timeline
`envReadsLateUuid`. -/
theorem C5_witness :
    envReadsLateUuid 1 = EnvFileRead.osError ∧
      load_environment_uuid true envReadsLateUuid 5
        = some "550e8400-e29b-41d4-a716-446655440000" :=
  ⟨rfl, C5_retry_amended.1 envReadsLateUuid "550e8400-e29b-41d4-a716-446655440000"
    "550e8400-e29b-41d4-a716-446655440000" rfl rfl rfl (by decide) (by decide)⟩

theorem keysOf_cons {α : Type} (k : String) (v : α) (rest : List (String × α)) :
    keysOf ((k, v) :: rest) = k :: keysOf rest := rfl

theorem mem_keysOf_of_mem {α : Type} {m : List (String × α)} {k : String} {v : α}
    (h : (k, v) ∈ m) : k ∈ keysOf m := by
  exact List.mem_map_of_mem Prod.fst h

theorem mergedValue_congr (m m' : List (String × JVal)) (k : String) (v : JVal)
    (h : lookup m k = lookup m' k) : mergedValue m k v = mergedValue m' k v := by
  cases v <;> simp [mergedValue, h]

theorem mergedValue_none (m : List (String × JVal)) (k : String) (v : JVal)
    (h : lookup m k = none) : mergedValue m k v = v := by
  cases v <;> simp [mergedValue, h]

theorem lookup_deep_merge_not_mem (o : List (String × JVal)) :
    ∀ (m : List (String × JVal)) (k : String), k ∉ keysOf o →
      lookup (_deep_merge m o) k = lookup m k := by
  induction o with
  | nil => intro m k _; rfl
  | cons hd tl ih =>
      intro m k h
      obtain ⟨k₁, v₁⟩ := hd
      rw [keysOf_cons, List.mem_cons, not_or] at h
      obtain ⟨h1, h2⟩ := h
      simp only [_deep_merge]
      rw [ih _ k h2, lookup_setKey_ne _ _ _ _ h1]

theorem lookup_deep_merge_mem (o : List (String × JVal)) :
    ∀ (b : List (String × JVal)) (k : String) (v : JVal),
      (keysOf o).Nodup → (k, v) ∈ o →
      lookup (_deep_merge b o) k = some (mergedValue b k v) := by
  induction o with
  | nil => intro b k v _ hm; cases hm
  | cons hd tl ih =>
      intro b k v hnd hm
      obtain ⟨k₁, v₁⟩ := hd
      rw [keysOf_cons, List.nodup_cons] at hnd
      obtain ⟨hn1, hn2⟩ := hnd
      rcases List.mem_cons.mp hm with heq | hmem
      · obtain ⟨hk, hv⟩ := Prod.mk.injEq .. ▸ heq
        subst hk
        subst hv
        simp only [_deep_merge]
        rw [lookup_deep_merge_not_mem tl _ k hn1, lookup_setKey_self]
      · have hk : k ≠ k₁ := by
          intro he
          exact hn1 (he ▸ mem_keysOf_of_mem hmem)
        simp only [_deep_merge]
        rw [ih _ k v hn2 hmem]
        exact congrArg some (mergedValue_congr _ _ _ _
          (lookup_setKey_ne b k₁ k _ hk))

theorem deep_merge_absorbed (o : List (String × JVal)) (m : List (String × JVal))
    (h : ∀ k v, (k, v) ∈ o → MergeAbsorbs (lookup m k) v) : _deep_merge m o = m := by
  induction o with
  | nil => rfl
  | cons hd tl ih =>
      obtain ⟨k, v⟩ := hd
      have hh := h k v (List.mem_cons_self _ _)
      have hstep : setKey m k (mergedValue m k v) = m := by
        cases v with
        | obj ov =>
            obtain ⟨u, hu, hmu⟩ := hh
            have hmv : mergedValue m k (JVal.obj ov) = JVal.obj u := by
              simp [mergedValue, hu, hmu]
            rw [hmv]
            exact setKey_self m k _ hu
        | null => exact setKey_self m k _ hh
        | bool b => exact setKey_self m k _ hh
        | num n => exact setKey_self m k _ hh
        | str s => exact setKey_self m k _ hh
        | arr xs => exact setKey_self m k _ hh
      simp only [_deep_merge]
      rw [hstep]
      exact ih (fun k' v' hm' => h k' v' (List.mem_cons_of_mem _ hm'))

theorem setKey_fresh {α : Type} (m : List (String × α)) (k : String) (v : α)
    (h : lookup m k = none) : setKey m k v = m ++ [(k, v)] := by
  induction m with
  | nil => rfl
  | cons hd tl ih =>
      obtain ⟨k₀, w⟩ := hd
      by_cases h0 : k₀ = k
      · simp [lookup, h0] at h
      · simp only [lookup, h0, if_false] at h
        simp [setKey, h0, ih h]

theorem deep_merge_disjoint (o : List (String × JVal)) :
    ∀ m : List (String × JVal), (keysOf o).Nodup →
      (∀ k, k ∈ keysOf o → lookup m k = none) → _deep_merge m o = m ++ o := by
  induction o with
  | nil => intro m _ _; simp [_deep_merge]
  | cons hd tl ih =>
      intro m hnd hdisj
      obtain ⟨k, v⟩ := hd
      rw [keysOf_cons, List.nodup_cons] at hnd
      have hk : lookup m k = none := hdisj k (by rw [keysOf_cons]; exact List.mem_cons_self _ _)
      simp only [_deep_merge]
      rw [mergedValue_none m k v hk, setKey_fresh m k v hk]
      rw [ih (m ++ [(k, v)]) hnd.2 ?_]
      · simp
      · intro k' hk'
        have hne : k' ≠ k := fun he => hnd.1 (he ▸ hk')
        rw [lookup_append]
        rw [hdisj k' (by rw [keysOf_cons]; exact List.mem_cons_of_mem _ hk')]
        simp [lookup, Ne.symm hne]

theorem deep_merge_nil_left (o : List (String × JVal)) (hnd : (keysOf o).Nodup) :
    _deep_merge [] o = o := by
  have := deep_merge_disjoint o [] hnd (fun k _ => rfl)
  simpa using this

theorem wfObj_nodup (m : List (String × JVal)) (h : wfObj m = true) :
    (keysOf m).Nodup := by
  simp only [wfObj, Bool.and_eq_true, decide_eq_true_eq] at h
  exact h.1

theorem wfFields_mem (o : List (String × JVal)) (k : String) (v : JVal)
    (h : wfFields o = true) (hm : (k, v) ∈ o) : wfVal v = true := by
  induction o with
  | nil => cases hm
  | cons hd tl ih =>
      obtain ⟨k₀, v₀⟩ := hd
      simp only [wfFields, Bool.and_eq_true] at h
      rcases List.mem_cons.mp hm with heq | hmem
      · obtain ⟨_, hv⟩ := Prod.mk.injEq .. ▸ heq
        exact hv ▸ h.1
      · exact ih h.2 hmem

theorem wfObj_of_wfVal (m : List (String × JVal)) (h : wfVal (JVal.obj m) = true) :
    wfObj m = true := by
  simpa [wfVal, wfObj] using h

theorem sizeOf_val_lt {o : List (String × JVal)} {k : String} {v : JVal}
    (hm : (k, v) ∈ o) : sizeOf v < sizeOf o := by
  have h1 := List.sizeOf_lt_of_mem hm
  have h2 : sizeOf v < sizeOf (k, v) := by
    simp only [Prod.mk.sizeOf_spec]
    omega
  omega

theorem mergedValue_not_obj (m : List (String × JVal)) (k : String) (v : JVal)
    (h : isObj v = false) : mergedValue m k v = v := by
  cases v <;> simp_all [mergedValue, isObj]

theorem deep_merge_idem_aux :
    ∀ (n : Nat) (o b : List (String × JVal)), sizeOf o ≤ n → wfObj o = true →
      _deep_merge (_deep_merge b o) o = _deep_merge b o := by
  intro n
  induction n with
  | zero =>
      intro o b hsz _
      have hpos : 0 < sizeOf o := by cases o <;> simp_arith
      omega
  | succ n ih =>
      intro o b hsz hwf
      apply deep_merge_absorbed
      intro k v hm
      have hnd : (keysOf o).Nodup := wfObj_nodup o hwf
      rw [lookup_deep_merge_mem o b k v hnd hm]
      cases v with
      | obj ov =>
          have hwfov : wfObj ov = true := by
            apply wfObj_of_wfVal
            apply wfFields_mem o k (JVal.obj ov) ?_ hm
            simp only [wfObj, Bool.and_eq_true] at hwf
            exact hwf.2
          have hndov : (keysOf ov).Nodup := wfObj_nodup ov hwfov
          have hszov : sizeOf ov ≤ n := by
            have h1 := sizeOf_val_lt hm
            have h2 : sizeOf ov < sizeOf (JVal.obj ov) := by
              simp only [JVal.obj.sizeOf_spec]
              omega
            omega
          have hself : _deep_merge ov ov = ov := by
            have h0 := deep_merge_nil_left ov hndov
            calc _deep_merge ov ov = _deep_merge (_deep_merge [] ov) ov := by rw [h0]
              _ = _deep_merge [] ov := ih ov [] hszov hwfov
              _ = ov := h0
          cases hlb : lookup b k with
          | none =>
              have hmv : mergedValue b k (JVal.obj ov) = JVal.obj ov := by
                simp [mergedValue, hlb]
              rw [hmv]
              exact ⟨ov, rfl, hself⟩
          | some w =>
              have hcase : mergedValue b k (JVal.obj ov) = JVal.obj ov ∨
                  ∃ mv, mergedValue b k (JVal.obj ov) = JVal.obj (_deep_merge mv ov) ∧
                    (keysOf ov).Nodup := by
                cases w with
                | obj mv =>
                    right
                    exact ⟨mv, by simp [mergedValue, hlb], hndov⟩
                | null => left; simp [mergedValue, hlb]
                | bool x => left; simp [mergedValue, hlb]
                | num x => left; simp [mergedValue, hlb]
                | str x => left; simp [mergedValue, hlb]
                | arr x => left; simp [mergedValue, hlb]
              rcases hcase with hmv | ⟨mv, hmv, _⟩
              · rw [hmv]
                exact ⟨ov, rfl, hself⟩
              · rw [hmv]
                exact ⟨_deep_merge mv ov, rfl, ih ov mv hszov hwfov⟩
      | null => rfl
      | bool x => rfl
      | num x => rfl
      | str x => rfl
      | arr x => rfl

/-- Claim C3: `_deep_merge(base, override)` merges nested dicts key-by-key
recursively, lets every non-dict override value win, and preserves every key
present only in base; the merge is idempotent in the override —
`_deep_merge(_deep_merge(b, o), o) = _deep_merge(b, o)` for all dicts `b`
and `o` — and in particular merging `[a:1, b:[x:1]]` with `[b:[y:2]]` yields
`[a:1, b:[x:1, y:2]]`, and re-merging that result with the same override
returns it unchanged. -/
theorem C3_deep_merge :
    (∀ (b o : List (String × JVal)) (k : String), k ∉ keysOf o →
      lookup (_deep_merge b o) k = lookup b k)
    ∧ (∀ (b o : List (String × JVal)) (k : String) (v : JVal),
        (keysOf o).Nodup → (k, v) ∈ o → isObj v = false →
        lookup (_deep_merge b o) k = some v)
    ∧ (∀ (b o : List (String × JVal)) (k : String) (bo ov : List (String × JVal)),
        (keysOf o).Nodup → (k, JVal.obj ov) ∈ o → lookup b k = some (JVal.obj bo) →
        lookup (_deep_merge b o) k = some (JVal.obj (_deep_merge bo ov)))
    ∧ (∀ (b o : List (String × JVal)), wfObj o = true →
        _deep_merge (_deep_merge b o) o = _deep_merge b o)
    ∧ (_deep_merge [("a", JVal.num 1), ("b", JVal.obj [("x", JVal.num 1)])]
        [("b", JVal.obj [("y", JVal.num 2)])]
      = [("a", JVal.num 1), ("b", JVal.obj [("x", JVal.num 1), ("y", JVal.num 2)])])
    ∧ (_deep_merge
        [("a", JVal.num 1), ("b", JVal.obj [("x", JVal.num 1), ("y", JVal.num 2)])]
        [("b", JVal.obj [("y", JVal.num 2)])]
      = [("a", JVal.num 1), ("b", JVal.obj [("x", JVal.num 1), ("y", JVal.num 2)])]) := by
  refine ⟨?_, ?_, ?_, ?_, by rfl, by rfl⟩
  · intro b o k h
    exact lookup_deep_merge_not_mem o b k h
  · intro b o k v hnd hm hno
    rw [lookup_deep_merge_mem o b k v hnd hm, mergedValue_not_obj b k v hno]
  · intro b o k bo ov hnd hm hlb
    rw [lookup_deep_merge_mem o b k (JVal.obj ov) hnd hm]
    simp [mergedValue, hlb]
  · intro b o hwf
    exact deep_merge_idem_aux (sizeOf o) o b le_rfl hwf

/-- Witness for C3: idempotence at the spec's concrete example. -/
theorem C3_witness :
    wfObj [("b", JVal.obj [("y", JVal.num 2)])] = true ∧
      _deep_merge (_deep_merge [("a", JVal.num 1), ("b", JVal.obj [("x", JVal.num 1)])]
          [("b", JVal.obj [("y", JVal.num 2)])]) [("b", JVal.obj [("y", JVal.num 2)])]
        = _deep_merge [("a", JVal.num 1), ("b", JVal.obj [("x", JVal.num 1)])]
            [("b", JVal.obj [("y", JVal.num 2)])] :=
  ⟨by rfl, C3_deep_merge.2.2.2.1 [("a", JVal.num 1), ("b", JVal.obj [("x", JVal.num 1)])]
    [("b", JVal.obj [("y", JVal.num 2)])] (by rfl)⟩

theorem dropWhile_head_false {p : Char → Bool} {l : List Char} {c : Char}
    (h : (l.dropWhile p).head? = some c) : p c = false := by
  have := List.head?_dropWhile_not p l
  rw [h] at this
  simpa using this

theorem dropWhile_of_head_false {p : Char → Bool} {l : List Char}
    (h : ∀ c, l.head? = some c → p c = false) : l.dropWhile p = l := by
  cases l with
  | nil => rfl
  | cons c t =>
      have hc : p c = false := h c rfl
      simp [List.dropWhile, hc]

theorem dropWhile_idem (p : Char → Bool) (l : List Char) :
    (l.dropWhile p).dropWhile p = l.dropWhile p := by
  apply dropWhile_of_head_false
  intro c hc
  exact dropWhile_head_false hc

theorem stripChars_idem (cs : List Char) : stripChars (stripChars cs) = stripChars cs := by
  unfold stripChars
  set l1 := cs.dropWhile isPySpace with hl1
  set y := l1.reverse.dropWhile isPySpace with hy
  have hpre : y.reverse <+: l1 := by
    rw [← List.reverse_suffix]
    simpa using List.dropWhile_suffix (l := l1.reverse) isPySpace
  have hstep1 : y.reverse.dropWhile isPySpace = y.reverse := by
    apply dropWhile_of_head_false
    intro c hc
    obtain ⟨t, ht⟩ := hpre
    have hhead : l1.head? = some c := by
      rw [← ht]
      cases hyr : y.reverse with
      | nil => rw [hyr] at hc; cases hc
      | cons a s =>
          rw [hyr] at hc
          simp at hc
          simp [hc]
    exact dropWhile_head_false (p := isPySpace) (l := cs) hhead
  rw [hstep1]
  rw [List.reverse_reverse, dropWhile_idem]

theorem strip_idem (s : String) : strip (strip s) = strip s := by
  unfold strip
  rw [show (String.mk (stripChars s.data)).data = stripChars s.data from rfl]
  rw [stripChars_idem]

theorem lookup_eq_some_of_mem {α : Type} {m : List (String × α)} {k : String} {v : α}
    (hnd : (keysOf m).Nodup) (hm : (k, v) ∈ m) : lookup m k = some v := by
  induction m with
  | nil => cases hm
  | cons hd tl ih =>
      obtain ⟨k₀, w⟩ := hd
      rw [keysOf_cons, List.nodup_cons] at hnd
      rcases List.mem_cons.mp hm with heq | hmem
      · obtain ⟨hk, hv⟩ := Prod.mk.injEq .. ▸ heq
        subst hk; subst hv
        simp [lookup]
      · have hk : k₀ ≠ k := fun he => hnd.1 (he ▸ mem_keysOf_of_mem hmem)
        simp [lookup, hk, ih hnd.2 hmem]

theorem mem_of_lookup_eq_some {α : Type} {m : List (String × α)} {k : String} {v : α}
    (h : lookup m k = some v) : (k, v) ∈ m := by
  induction m with
  | nil => cases h
  | cons hd tl ih =>
      obtain ⟨k₀, w⟩ := hd
      by_cases h0 : k₀ = k
      · subst h0
        simp [lookup] at h
        simp [h]
      · simp [lookup, h0] at h
        exact List.mem_cons_of_mem _ (ih h)

theorem lookup_eq_none_of_not_mem_keys {α : Type} {m : List (String × α)} {k : String}
    (h : k ∉ keysOf m) : lookup m k = none := by
  induction m with
  | nil => rfl
  | cons hd tl ih =>
      obtain ⟨k₀, w⟩ := hd
      rw [keysOf_cons, List.mem_cons, not_or] at h
      simp [lookup, Ne.symm h.1, ih h.2]

theorem lookup_envsFromRaw_not_mem (raws : List (String × JVal)) :
    ∀ (acc : List (String × String)) (name : String), name ∉ keysOf raws →
      lookup (envsFromRaw acc raws) name = lookup acc name := by
  induction raws with
  | nil => intro acc name _; rfl
  | cons hd tl ih =>
      intro acc name h
      obtain ⟨k, v⟩ := hd
      rw [keysOf_cons, List.mem_cons, not_or] at h
      cases v with
      | str s =>
          simp only [envsFromRaw]
          by_cases hcond : pyStartsWith k "CYBERWAVE_" ∧ strip s ≠ ""
          · rw [if_pos hcond, ih _ _ h.2, lookup_setKey_ne _ _ _ _ h.1]
          · rw [if_neg hcond, ih _ _ h.2]
      | null => exact ih _ _ h.2
      | bool b => exact ih _ _ h.2
      | num n => exact ih _ _ h.2
      | arr xs => exact ih _ _ h.2
      | obj o => exact ih _ _ h.2

theorem lookup_envsFromRaw_mem (raws : List (String × JVal)) :
    ∀ (acc : List (String × String)) (name : String) (v : JVal),
      (keysOf raws).Nodup → (name, v) ∈ raws →
      lookup (envsFromRaw acc raws) name =
        (match v with
        | JVal.str s =>
            if pyStartsWith name "CYBERWAVE_" ∧ strip s ≠ ""
            then some (strip s) else lookup acc name
        | _ => lookup acc name) := by
  induction raws with
  | nil => intro _ _ _ _ hm; cases hm
  | cons hd tl ih =>
      intro acc name v hnd hm
      obtain ⟨k, w⟩ := hd
      rw [keysOf_cons, List.nodup_cons] at hnd
      rcases List.mem_cons.mp hm with heq | hmem
      · obtain ⟨hk, hv⟩ := Prod.mk.injEq .. ▸ heq
        subst hk; subst hv
        cases v with
        | str s =>
            simp only [envsFromRaw]
            by_cases hcond : pyStartsWith name "CYBERWAVE_" ∧ strip s ≠ ""
            · rw [if_pos hcond, lookup_envsFromRaw_not_mem tl _ name hnd.1,
                lookup_setKey_self]
              simp [hcond]
            · rw [if_neg hcond, lookup_envsFromRaw_not_mem tl _ name hnd.1]
              simp [hcond]
        | null => exact lookup_envsFromRaw_not_mem tl _ name hnd.1
        | bool b => exact lookup_envsFromRaw_not_mem tl _ name hnd.1
        | num n => exact lookup_envsFromRaw_not_mem tl _ name hnd.1
        | arr xs => exact lookup_envsFromRaw_not_mem tl _ name hnd.1
        | obj o => exact lookup_envsFromRaw_not_mem tl _ name hnd.1
      · have hk : name ≠ k := fun he => hnd.1 (he ▸ mem_keysOf_of_mem hmem)
        cases w with
        | str s =>
            simp only [envsFromRaw]
            by_cases hcond : pyStartsWith k "CYBERWAVE_" ∧ strip s ≠ ""
            · rw [if_pos hcond, ih _ _ _ hnd.2 hmem]
              cases v <;> simp [lookup_setKey_ne _ _ _ _ hk]
            · rw [if_neg hcond]
              exact ih _ _ _ hnd.2 hmem
        | null => exact ih _ _ _ hnd.2 hmem
        | bool b => exact ih _ _ _ hnd.2 hmem
        | num n => exact ih _ _ _ hnd.2 hmem
        | arr xs => exact ih _ _ _ hnd.2 hmem
        | obj o => exact ih _ _ _ hnd.2 hmem

theorem lookup_addLegacyKeys_not_mem (ks : List String) :
    ∀ (fields : List (String × JVal)) (acc : List (String × String)) (name : String),
      name ∉ ks →
      lookup (addLegacyKeys fields acc ks) name = lookup acc name := by
  induction ks with
  | nil => intro _ _ _ _; rfl
  | cons key rest ih =>
      intro fields acc name h
      rw [List.mem_cons, not_or] at h
      cases hf : lookup fields key with
      | none =>
          simp only [addLegacyKeys, hf]
          exact ih _ _ _ h.2
      | some v =>
          cases v with
          | str s =>
              simp only [addLegacyKeys, hf]
              by_cases hcond : (lookup acc key).isNone ∧ strip s ≠ ""
              · rw [if_pos hcond, ih _ _ _ h.2, lookup_append]
                cases hl : lookup acc name with
                | some x => rfl
                | none => simp [lookup, Ne.symm h.1]
              · rw [if_neg hcond]
                exact ih _ _ _ h.2
          | null => simp only [addLegacyKeys, hf]; exact ih _ _ _ h.2
          | bool b => simp only [addLegacyKeys, hf]; exact ih _ _ _ h.2
          | num n => simp only [addLegacyKeys, hf]; exact ih _ _ _ h.2
          | arr xs => simp only [addLegacyKeys, hf]; exact ih _ _ _ h.2
          | obj o => simp only [addLegacyKeys, hf]; exact ih _ _ _ h.2

theorem lookup_addLegacyKeys_mem (ks : List String) :
    ∀ (fields : List (String × JVal)) (acc : List (String × String)) (name : String),
      ks.Nodup → name ∈ ks →
      lookup (addLegacyKeys fields acc ks) name =
        (match lookup acc name with
        | some x => some x
        | none =>
            match lookup fields name with
            | some (JVal.str s) => if strip s ≠ "" then some (strip s) else none
            | _ => none) := by
  induction ks with
  | nil => intro _ _ _ _ hm; cases hm
  | cons key rest ih =>
      intro fields acc name hnd hm
      rw [List.nodup_cons] at hnd
      rcases List.mem_cons.mp hm with heq | hmem
      · subst heq
        cases hf : lookup fields name with
        | none =>
            simp only [addLegacyKeys, hf]
            rw [lookup_addLegacyKeys_not_mem rest fields acc name hnd.1]
            cases hl : lookup acc name <;> simp [hf]
        | some v =>
            cases v with
            | str s =>
                simp only [addLegacyKeys, hf]
                by_cases hcond : (lookup acc name).isNone ∧ strip s ≠ ""
                · rw [if_pos hcond, lookup_addLegacyKeys_not_mem rest _ _ _ hnd.1,
                    lookup_append]
                  obtain ⟨hnone, hne⟩ := hcond
                  rw [Option.isNone_iff_eq_none] at hnone
                  rw [hnone]
                  simp [lookup, hne]
                · rw [if_neg hcond, lookup_addLegacyKeys_not_mem rest _ _ _ hnd.1]
                  cases hl : lookup acc name with
                  | some x => simp
                  | none =>
                      have hse : strip s = "" := by
                        by_contra hne
                        exact hcond ⟨by simp [hl], hne⟩
                      simp [hse]
            | null =>
                simp only [addLegacyKeys, hf]
                rw [lookup_addLegacyKeys_not_mem rest _ _ _ hnd.1]
                cases hl : lookup acc name <;> simp
            | bool b =>
                simp only [addLegacyKeys, hf]
                rw [lookup_addLegacyKeys_not_mem rest _ _ _ hnd.1]
                cases hl : lookup acc name <;> simp
            | num n =>
                simp only [addLegacyKeys, hf]
                rw [lookup_addLegacyKeys_not_mem rest _ _ _ hnd.1]
                cases hl : lookup acc name <;> simp
            | arr xs =>
                simp only [addLegacyKeys, hf]
                rw [lookup_addLegacyKeys_not_mem rest _ _ _ hnd.1]
                cases hl : lookup acc name <;> simp
            | obj o =>
                simp only [addLegacyKeys, hf]
                rw [lookup_addLegacyKeys_not_mem rest _ _ _ hnd.1]
                cases hl : lookup acc name <;> simp
      · have hk : name ≠ key := fun he => hnd.1 (he ▸ hmem)
        cases hf : lookup fields key with
        | none =>
            simp only [addLegacyKeys, hf]
            exact ih _ _ _ hnd.2 hmem
        | some v =>
            cases v with
            | str s =>
                simp only [addLegacyKeys, hf]
                by_cases hcond : (lookup acc key).isNone ∧ strip s ≠ ""
                · rw [if_pos hcond, ih _ _ _ hnd.2 hmem, lookup_append]
                  cases hl : lookup acc name with
                  | some x => rfl
                  | none => simp [lookup, Ne.symm hk]
                · rw [if_neg hcond]
                  exact ih _ _ _ hnd.2 hmem
            | null => simp only [addLegacyKeys, hf]; exact ih _ _ _ hnd.2 hmem
            | bool b => simp only [addLegacyKeys, hf]; exact ih _ _ _ hnd.2 hmem
            | num n => simp only [addLegacyKeys, hf]; exact ih _ _ _ hnd.2 hmem
            | arr xs => simp only [addLegacyKeys, hf]; exact ih _ _ _ hnd.2 hmem
            | obj o => simp only [addLegacyKeys, hf]; exact ih _ _ _ hnd.2 hmem

theorem lookup_isSome_of_mem_keys {α : Type} {m : List (String × α)} {k : String}
    (h : k ∈ keysOf m) : ∃ v, lookup m k = some v := by
  induction m with
  | nil => cases h
  | cons hd tl ih =>
      obtain ⟨k₀, w⟩ := hd
      by_cases h0 : k₀ = k
      · exact ⟨w, by simp [lookup, h0]⟩
      · rw [keysOf_cons, List.mem_cons] at h
        rcases h with heq | hmem
        · exact absurd heq.symm h0
        · obtain ⟨v, hv⟩ := ih hmem
          exact ⟨v, by simp [lookup, h0, hv]⟩

theorem lookup_envsFromRaw_spec (raws : List (String × JVal)) (name : String)
    (hnd : (keysOf raws).Nodup) :
    lookup (envsFromRaw [] raws) name =
      (match lookup raws name with
      | some (JVal.str s) =>
          if pyStartsWith name "CYBERWAVE_" ∧ strip s ≠ "" then some (strip s) else none
      | _ => none) := by
  cases hr : lookup raws name with
  | none =>
      have hnm : name ∉ keysOf raws := by
        intro hin
        obtain ⟨v, hv⟩ := lookup_isSome_of_mem_keys hin
        rw [hv] at hr
        cases hr
      rw [lookup_envsFromRaw_not_mem raws [] name hnm]
      rfl
  | some rv =>
      have hmem := mem_of_lookup_eq_some hr
      rw [lookup_envsFromRaw_mem raws [] name rv hnd hmem]
      cases rv <;> simp [lookup]

theorem spec_envs_lookup_shape :
    ∀ (cred : Option JVal) (name x : String),
      spec_envs_lookup cred name = some x → strip x = x ∧ x ≠ "" := by
  intro cred name x h
  cases cred with
  | none => simp [spec_envs_lookup] at h
  | some v =>
      cases v with
      | obj fields =>
          cases he : lookup fields "envs" with
          | none => simp [spec_envs_lookup, he] at h
          | some ev =>
              cases ev with
              | obj raws =>
                  cases hr : lookup raws name with
                  | none => simp [spec_envs_lookup, he, hr] at h
                  | some rv =>
                      cases rv with
                      | str s =>
                          simp only [spec_envs_lookup, he, hr] at h
                          by_cases hcond : pyStartsWith name "CYBERWAVE_" ∧ strip s ≠ ""
                          · rw [if_pos hcond] at h
                            have hx : strip s = x := Option.some.inj h
                            refine ⟨?_, ?_⟩
                            · rw [← hx, strip_idem]
                            · rw [← hx]; exact hcond.2
                          · rw [if_neg hcond] at h
                            cases h
                      | null => simp [spec_envs_lookup, he, hr] at h
                      | bool b => simp [spec_envs_lookup, he, hr] at h
                      | num n => simp [spec_envs_lookup, he, hr] at h
                      | arr xs => simp [spec_envs_lookup, he, hr] at h
                      | obj o => simp [spec_envs_lookup, he, hr] at h
              | null => simp [spec_envs_lookup, he] at h
              | bool b => simp [spec_envs_lookup, he] at h
              | num n => simp [spec_envs_lookup, he] at h
              | str s => simp [spec_envs_lookup, he] at h
              | arr xs => simp [spec_envs_lookup, he] at h
      | null => simp [spec_envs_lookup] at h
      | bool b => simp [spec_envs_lookup] at h
      | num n => simp [spec_envs_lookup] at h
      | str s => simp [spec_envs_lookup] at h
      | arr xs => simp [spec_envs_lookup] at h

theorem spec_legacy_lookup_shape :
    ∀ (cred : Option JVal) (name x : String),
      spec_legacy_lookup cred name = some x → strip x = x ∧ x ≠ "" := by
  intro cred name x h
  unfold spec_legacy_lookup at h
  by_cases hmem : name ∈ legacyCredentialKeys
  · rw [if_pos hmem] at h
    cases cred with
    | none => cases h
    | some v =>
        cases v with
        | obj fields =>
            simp only [] at h
            cases hf : lookup fields name with
            | none => simp [hf] at h
            | some fv =>
                cases fv with
                | str s =>
                    simp only [hf] at h
                    by_cases hne : strip s ≠ ""
                    · rw [if_pos hne] at h
                      have hx : strip s = x := Option.some.inj h
                      refine ⟨?_, ?_⟩
                      · rw [← hx, strip_idem]
                      · rw [← hx]; exact hne
                    · rw [if_neg hne] at h
                      cases h
                | null => simp [hf] at h
                | bool b => simp [hf] at h
                | num n => simp [hf] at h
                | arr xs => simp [hf] at h
                | obj o => simp [hf] at h
        | null => cases h
        | bool b => cases h
        | num n => cases h
        | str s => cases h
        | arr xs => cases h
  · rw [if_neg hmem] at h
    cases h

theorem lookup_load_credentials_envs (cred : Option JVal) (name : String)
    (hwf : credentials_wf cred = true) :
    lookup (load_credentials_envs cred) name =
      (match spec_envs_lookup cred name with
       | some x => some x
       | none => spec_legacy_lookup cred name) := by
  have hnodupLegacy : legacyCredentialKeys.Nodup := by decide
  cases cred with
  | none => simp [load_credentials_envs, spec_envs_lookup, spec_legacy_lookup, lookup, ite_self]
  | some v =>
      cases v with
      | obj fields =>
          have henvs : ∀ envsBase : List (String × String),
              lookup envsBase name = spec_envs_lookup (some (JVal.obj fields)) name →
              lookup (addLegacyKeys fields envsBase legacyCredentialKeys) name =
                (match spec_envs_lookup (some (JVal.obj fields)) name with
                 | some x => some x
                 | none => spec_legacy_lookup (some (JVal.obj fields)) name) := by
            intro envsBase hbase
            by_cases hmem : name ∈ legacyCredentialKeys
            · rw [lookup_addLegacyKeys_mem _ _ _ _ hnodupLegacy hmem, hbase]
              cases hs : spec_envs_lookup (some (JVal.obj fields)) name with
              | some x => rfl
              | none =>
                  unfold spec_legacy_lookup
                  rw [if_pos hmem]
            · rw [lookup_addLegacyKeys_not_mem _ _ _ _ hmem, hbase]
              cases hs : spec_envs_lookup (some (JVal.obj fields)) name with
              | some x => rfl
              | none =>
                  unfold spec_legacy_lookup
                  rw [if_neg hmem]
          simp only [load_credentials_envs]
          cases he : lookup fields "envs" with
          | none =>
              apply henvs
              simp [spec_envs_lookup, he, lookup]
          | some ev =>
              cases ev with
              | obj raws =>
                  apply henvs
                  have hnd : (keysOf raws).Nodup := by
                    simp only [credentials_wf, he] at hwf
                    exact of_decide_eq_true hwf
                  rw [lookup_envsFromRaw_spec raws name hnd]
                  simp [spec_envs_lookup, he]
              | null => apply henvs; simp [spec_envs_lookup, he, lookup]
              | bool b => apply henvs; simp [spec_envs_lookup, he, lookup]
              | num n => apply henvs; simp [spec_envs_lookup, he, lookup]
              | str s => apply henvs; simp [spec_envs_lookup, he, lookup]
              | arr xs => apply henvs; simp [spec_envs_lookup, he, lookup]
      | null => simp [load_credentials_envs, spec_envs_lookup, spec_legacy_lookup, lookup, ite_self]
      | bool b => simp [load_credentials_envs, spec_envs_lookup, spec_legacy_lookup, lookup, ite_self]
      | num n => simp [load_credentials_envs, spec_envs_lookup, spec_legacy_lookup, lookup, ite_self]
      | str s => simp [load_credentials_envs, spec_envs_lookup, spec_legacy_lookup, lookup, ite_self]
      | arr xs => simp [load_credentials_envs, spec_envs_lookup, spec_legacy_lookup, lookup, ite_self]

/-- Claim C4: `get_runtime_env_var` resolves with the four-level precedence
of the spec — a live process environment value that is non-empty after
trimming always wins; otherwise a trimmed non-empty entry of the persisted
credentials `envs` mapping (keys restricted to the `CYBERWAVE_` prefix);
otherwise a trimmed non-empty legacy flat top-level value, for the fixed
allow-list of names only and only when the name is not already present in
`envs`; otherwise the caller default.  Stated as equality with the
spec-modelled cascade `spec_resolve`, plus the spec's concrete example. -/
theorem C4_config_precedence :
    (∀ (osEnv : String → Option String) (cred : Option JVal) (name : String)
      (default : Option String), credentials_wf cred = true →
      get_runtime_env_var osEnv cred name default = spec_resolve osEnv cred name default)
    ∧ get_runtime_env_var (fun _ => none)
        (some (JVal.obj
          [("envs", JVal.obj [("CYBERWAVE_API_URL", JVal.str "https://a")]),
           ("CYBERWAVE_API_URL", JVal.str "https://b")]))
        "CYBERWAVE_API_URL" none = some "https://a" := by
  refine ⟨?_, by rfl⟩
  intro osEnv cred name default hwf
  have hcred : credentials_env_value cred name default =
      (match spec_envs_lookup cred name with
       | some x => some x
       | none =>
          match spec_legacy_lookup cred name with
          | some x => some x
          | none => default) := by
    unfold credentials_env_value
    rw [lookup_load_credentials_envs cred name hwf]
    cases hs : spec_envs_lookup cred name with
    | some x =>
        obtain ⟨hx1, hx2⟩ := spec_envs_lookup_shape cred name x hs
        simp [hx1, hx2]
    | none =>
        cases hl : spec_legacy_lookup cred name with
        | some x =>
            obtain ⟨hx1, hx2⟩ := spec_legacy_lookup_shape cred name x hl
            simp [hl, hx1, hx2]
        | none => simp [hl]
  unfold get_runtime_env_var spec_resolve
  cases hp : osEnv name with
  | none => exact hcred
  | some pv =>
      simp only []
      by_cases hpe : strip pv = ""
      · rw [if_pos hpe, if_neg (by simpa using hpe)]
        exact hcred
      · rw [if_neg hpe, if_pos hpe]

/-- Witness for C4 at the spec's example credentials payload. -/
theorem C4_witness :
    credentials_wf (some (JVal.obj
      [("envs", JVal.obj [("CYBERWAVE_API_URL", JVal.str "https://a")]),
       ("CYBERWAVE_API_URL", JVal.str "https://b")])) = true ∧
      get_runtime_env_var (fun _ => none)
        (some (JVal.obj
          [("envs", JVal.obj [("CYBERWAVE_API_URL", JVal.str "https://a")]),
           ("CYBERWAVE_API_URL", JVal.str "https://b")]))
        "CYBERWAVE_API_URL" none
      = spec_resolve (fun _ => none)
        (some (JVal.obj
          [("envs", JVal.obj [("CYBERWAVE_API_URL", JVal.str "https://a")]),
           ("CYBERWAVE_API_URL", JVal.str "https://b")]))
        "CYBERWAVE_API_URL" none :=
  ⟨rfl, C4_config_precedence.1 _ _ _ _ rfl⟩
